import Mathlib

/-
  Verification development for the "routing-token" drag-to-route module.

  Shallow embedding of:
  - the fallback coordinate helper (getFallbackCoordinateHelper, unnamed main
    module: pixelToGridBounded / gridPosToPixel);
  - PathfindingService.findAccessibleDestination (ring search for an
    accessible destination);
  - PathfindingService.calculateDragPathfinding (budget computation, oracle
    query, trailing-segment append, direct-path fallback);
  - TokenMovementService.moveTokenThroughWaypoints (waypoint executor);
  - DragHandlerService.onDragStart / onDragDrop (drag session table);
  - the _onDragLeftDrop override's truthiness test on the async handler.
-/

namespace RoutingToken

/-- A route-space (grid) position: integer cell coordinates. -/
structure GridPos where
  x : Int
  y : Int
deriving DecidableEq, Repr

/-- A world-space (pixel) position; JS numbers modelled as rationals. -/
structure PixelPos where
  x : Rat
  y : Rat
deriving DecidableEq, Repr

/-- JS Math.round: round half toward positive infinity. -/
def jsRound (q : Rat) : Int := Int.floor (q + 1/2)

/-- The two grid modes distinguished by the fallback coordinate helper
(canvas.grid.type === GRIDLESS versus any discretized grid). -/
inductive GridKind where
  | gridless
  | square
deriving DecidableEq, Repr

/-- Fallback helper pixelToGridBounded: identity in gridless mode; in grid
mode, round ((p - size/2) / size) and clamp to be non-negative. The result is
an integer-valued point, stored as a JS number (here: rational). -/
def pixelToGridBounded (mode : GridKind) (s : Rat) (p : PixelPos) : PixelPos :=
  match mode with
  | .gridless => ⟨p.x, p.y⟩
  | .square =>
      ⟨(max 0 (jsRound ((p.x - s/2) / s)) : Int), (max 0 (jsRound ((p.y - s/2) / s)) : Int)⟩

/-- Fallback helper gridPosToPixel: identity in gridless mode; in grid mode,
cell index times size plus half a cell. -/
def gridPosToPixel (mode : GridKind) (s : Rat) (g : PixelPos) : PixelPos :=
  match mode with
  | .gridless => ⟨g.x, g.y⟩
  | .square => ⟨g.x * s + s/2, g.y * s + s/2⟩

/-- jsRound of an integer is that integer. -/
theorem jsRound_intCast (z : Int) : jsRound (z : Rat) = z := by
  unfold jsRound
  rw [Int.floor_int_add]
  norm_num

/-- The grid-mode round trip recovers a clamped cell index exactly. -/
theorem roundTrip_coord (s : Rat) (hs : 0 < s) (z : Int) :
    max 0 (jsRound (((z : Rat) * s + s/2 - s/2) / s)) = max 0 z := by
  have hs' : s ≠ 0 := ne_of_gt hs
  have h1 : ((z : Rat) * s + s/2 - s/2) / s = (z : Rat) := by
    field_simp
  rw [h1, jsRound_intCast]

/-- C10: for every world point p, toRouteSpace (toWorldSpace (toRouteSpace p))
equals toRouteSpace p, in both the discretized (grid) mode and the continuous
(gridless) mode of the fallback coordinate transform. -/
theorem toRouteSpace_idempotent (mode : GridKind) (s : Rat) (p : PixelPos)
    (hs : 0 < s) :
    pixelToGridBounded mode s (gridPosToPixel mode s (pixelToGridBounded mode s p)) =
      pixelToGridBounded mode s p := by
  cases mode with
  | gridless => rfl
  | square =>
      unfold pixelToGridBounded gridPosToPixel
      simp only
      congr 1
      · rw [roundTrip_coord s hs]
        norm_cast
        rw [← max_assoc, max_self]
      · rw [roundTrip_coord s hs]
        norm_cast
        rw [← max_assoc, max_self]

/-- Witness for C10: concrete evaluation at grid size 7, point (3, 100),
square mode. -/
theorem toRouteSpace_idempotent_witness :
    (0 : Rat) < 7 ∧
      pixelToGridBounded .square 7 (gridPosToPixel .square 7 (pixelToGridBounded .square 7 ⟨3, 100⟩)) =
        pixelToGridBounded .square 7 ⟨3, 100⟩ :=
  ⟨by norm_num, toRouteSpace_idempotent .square 7 ⟨3, 100⟩ (by norm_num)⟩

/-- Candidate grid cell at offset c from the raw destination
(candidatePos = { x: gridToPos.x + dx, y: gridToPos.y + dy }). -/
def candAt (toDest : GridPos) (c : Int × Int) : GridPos := ⟨toDest.x + c.1, toDest.y + c.2⟩

/-- Manhattan distance of an offset (distance = |dx| + |dy| in the source). -/
def offDist (c : Int × Int) : Nat := c.1.natAbs + c.2.natAbs

/-- The ring-perimeter offsets scanned at a given radius, in the source's
iteration order: dx ascending from -radius to radius (outer loop), dy
ascending from -radius to radius (inner loop), keeping only offsets with
|dx| = radius or |dy| = radius. -/
def offsetsAt (r : Nat) : List (Int × Int) :=
  ((List.range (2 * r + 1)).map (fun i => (i : Int) - r)).flatMap (fun dx =>
    ((List.range (2 * r + 1)).map (fun j => (j : Int) - r)).filterMap (fun dy =>
      if dx.natAbs = r ∨ dy.natAbs = r then some (dx, dy) else none))

/-- Accumulator of the source's bestAlternative / shortestDistance pair. -/
structure Best where
  pos : GridPos
  dist : Nat
deriving DecidableEq, Repr

/-- One iteration of the candidate scan: skip blocked candidates, otherwise
keep the candidate if it strictly improves the shortest Manhattan distance
seen so far (earlier candidates win ties). -/
def scanStep (blocked : GridPos → Bool) (toDest : GridPos) (acc : Option Best)
    (c : Int × Int) : Option Best :=
  if blocked (candAt toDest c) then acc
  else
    match acc with
    | none => some ⟨candAt toDest c, offDist c⟩
    | some b => if offDist c < b.dist then some ⟨candAt toDest c, offDist c⟩ else some b

/-- Scan all perimeter candidates of one radius, updating the accumulator. -/
def scanRadius (blocked : GridPos → Bool) (toDest : GridPos) (r : Nat)
    (acc : Option Best) : Option Best :=
  (offsetsAt r).foldl (scanStep blocked toDest) acc

/-- The radius loop: scan radii in order, stopping at the first radius whose
scan produced a best alternative (the source's `if (bestAlternative) break`). -/
def ringSearchList (blocked : GridPos → Bool) (toDest : GridPos) :
    List Nat → Option Best
  | [] => none
  | r :: rs =>
    match scanRadius blocked toDest r none with
    | some b => some b
    | none => ringSearchList blocked toDest rs

/-- The source's fixed search ceiling (searchRadius = 5). -/
def searchRadius : Nat := 5

/-- The radii scanned: 1, 2, …, searchRadius. -/
def ringRadii : List Nat := [1, 2, 3, 4, 5]

/-- PathfindingService.findAccessibleDestination: if the collision primitive
is absent, or the direct step to the destination is unobstructed, or no ring
up to the ceiling yields an accessible candidate, return the raw destination
for both fields; otherwise keep the raw destination as finalDestination and
the best ring candidate as pathDestination. The collision primitive is
specialized to the fixed origin and token data of one call. -/
def findAccessibleDestination (step : Option (GridPos → GridPos → Bool))
    (fromPos toDest : GridPos) : GridPos × GridPos :=
  match step with
  | none => (toDest, toDest)
  | some collide =>
    if collide fromPos toDest = false then (toDest, toDest)
    else
      match ringSearchList (fun c => collide fromPos c) toDest ringRadii with
      | some b => (toDest, b.pos)
      | none => (toDest, toDest)

/-- The unobstructed offsets of one ring, in iteration order. -/
def freeOffsets (blocked : GridPos → Bool) (toDest : GridPos) (r : Nat) :
    List (Int × Int) :=
  (offsetsAt r).filter (fun c => !blocked (candAt toDest c))

/-- Reference selection following the spec's words: the first element of a
list of offsets attaining the minimal Manhattan distance. -/
def firstMin : List (Int × Int) → Option (Int × Int)
  | [] => none
  | c :: l =>
    match firstMin l with
    | none => some c
    | some b => if offDist c ≤ offDist b then some c else some b

/-- The scan result one ring should produce per the spec's selection rule. -/
def specBest (blocked : GridPos → Bool) (toDest : GridPos) (r : Nat) : Option Best :=
  (firstMin (freeOffsets blocked toDest r)).map (fun c => ⟨candAt toDest c, offDist c⟩)

/-- Merge of an accumulator with the best of a later segment: earlier entries
win ties (strict improvement is required to replace). -/
def bestOf (acc x : Option Best) : Option Best :=
  match acc, x with
  | none, x => x
  | some b, none => some b
  | some b, some c => if c.dist < b.dist then some c else some b

/-- bestOf has none as a right identity. -/
theorem bestOf_none_right (x : Option Best) : bestOf x none = x := by
  cases x <;> rfl

/-- bestOf has none as a left identity. -/
theorem bestOf_none_left (x : Option Best) : bestOf none x = x := by
  cases x <;> rfl

/-- bestOf is associative (left-biased strict minimum merge). -/
theorem bestOf_assoc (x y z : Option Best) :
    bestOf (bestOf x y) z = bestOf x (bestOf y z) := by
  cases x with
  | none => rw [bestOf_none_left, bestOf_none_left]
  | some a =>
    cases y with
    | none => rw [bestOf_none_right, bestOf_none_left]
    | some b =>
      cases z with
      | none => rw [bestOf_none_right, bestOf_none_right]
      | some c =>
        simp only [bestOf]
        rcases Nat.lt_or_ge b.dist a.dist with h1 | h1 <;>
          rcases Nat.lt_or_ge c.dist b.dist with h2 | h2
        · rw [if_pos h1, if_pos h2]
          simp only [bestOf]
          rw [if_pos h2, if_pos (Nat.lt_trans h2 h1)]
        · rw [if_pos h1, if_neg (Nat.not_lt.mpr h2)]
          simp only [bestOf]
          rw [if_neg (Nat.not_lt.mpr h2), if_pos h1]
        · rw [if_neg (Nat.not_lt.mpr h1), if_pos h2]
        · rw [if_neg (Nat.not_lt.mpr h1), if_neg (Nat.not_lt.mpr h2)]
          simp only [bestOf]
          rw [if_neg (by omega), if_neg (by omega)]

/-- One scan step merges the accumulator with the candidate's contribution. -/
theorem scanStep_eq_bestOf (blocked : GridPos → Bool) (toDest : GridPos)
    (acc : Option Best) (c : Int × Int) :
    scanStep blocked toDest acc c =
      bestOf acc
        (if blocked (candAt toDest c) then none else some ⟨candAt toDest c, offDist c⟩) := by
  unfold scanStep bestOf
  by_cases hb : blocked (candAt toDest c) <;> cases acc <;> simp [hb]

/-- The head candidate's contribution merged with the tail's first-minimum
yields the first-minimum of the whole filtered list. -/
theorem bestOf_step_firstMin (blocked : GridPos → Bool) (toDest : GridPos)
    (c : Int × Int) (l : List (Int × Int)) :
    bestOf (if blocked (candAt toDest c) then none else some ⟨candAt toDest c, offDist c⟩)
        ((firstMin (l.filter (fun d => !blocked (candAt toDest d)))).map
          (fun d => ⟨candAt toDest d, offDist d⟩)) =
      (firstMin ((c :: l).filter (fun d => !blocked (candAt toDest d)))).map
        (fun d => ⟨candAt toDest d, offDist d⟩) := by
  by_cases hb : blocked (candAt toDest c)
  · have hf : ((c :: l).filter (fun d => !blocked (candAt toDest d))) =
        l.filter (fun d => !blocked (candAt toDest d)) := by
      simp [List.filter_cons, hb]
    rw [if_pos hb, bestOf_none_left, hf]
  · have hb' : (!blocked (candAt toDest c)) = true := by simp [hb]
    have hf : ((c :: l).filter (fun d => !blocked (candAt toDest d))) =
        c :: l.filter (fun d => !blocked (candAt toDest d)) := by
      simp [List.filter_cons, hb]
    rw [if_neg hb, hf]
    cases hl : firstMin (l.filter (fun d => !blocked (candAt toDest d))) with
    | none =>
        simp only [firstMin, hl, Option.map_none', bestOf_none_right, Option.map_some']
    | some b0 =>
        simp only [firstMin, hl, Option.map_some']
        rcases le_or_lt (offDist c) (offDist b0) with h | h
        · rw [if_pos h]
          simp only [bestOf, Option.map_some']
          rw [if_neg (by simp only [offDist] at *; omega)]
        · rw [if_neg (by omega)]
          simp only [bestOf, Option.map_some']
          rw [if_pos (by simp only [offDist] at *; omega)]

/-- The left fold of scanStep over any offset list equals merging the starting
accumulator with the spec-side first-minimum of the list's free offsets. -/
theorem foldl_scanStep (blocked : GridPos → Bool) (toDest : GridPos) :
    ∀ (l : List (Int × Int)) (acc : Option Best),
      l.foldl (scanStep blocked toDest) acc =
        bestOf acc ((firstMin (l.filter (fun c => !blocked (candAt toDest c)))).map
          (fun c => ⟨candAt toDest c, offDist c⟩))
  | [], acc => by
      simp [firstMin, bestOf_none_right]
  | c :: l, acc => by
      rw [List.foldl_cons, foldl_scanStep blocked toDest l (scanStep blocked toDest acc c),
        scanStep_eq_bestOf, bestOf_assoc, bestOf_step_firstMin]

/-- A single-radius scan from an empty accumulator computes the spec's
first-minimum selection over that ring's free offsets. -/
theorem scanRadius_eq_specBest (blocked : GridPos → Bool) (toDest : GridPos) (r : Nat) :
    scanRadius blocked toDest r none = specBest blocked toDest r := by
  unfold scanRadius specBest freeOffsets
  rw [foldl_scanStep]
  rfl

/-- firstMin returns none exactly on the empty list. -/
theorem firstMin_eq_none_iff (l : List (Int × Int)) : firstMin l = none ↔ l = [] := by
  cases l with
  | nil => simp [firstMin]
  | cons c l =>
      cases h : firstMin l <;> (simp [firstMin, h]; try (split <;> simp))

/-- firstMin picks a member of the list, of minimal Manhattan distance, and it
is the first member attaining that minimum. -/
theorem firstMin_spec :
    ∀ (l : List (Int × Int)) (c : Int × Int), firstMin l = some c →
      c ∈ l ∧ (∀ d ∈ l, offDist c ≤ offDist d) ∧
      ∃ i, ∃ hi : i < l.length, l.get ⟨i, hi⟩ = c ∧
        ∀ j, ∀ hj : j < l.length, j < i → offDist c < offDist (l.get ⟨j, hj⟩)
  | [], c => by simp [firstMin]
  | a :: l, c => by
      intro h
      cases hl : firstMin l with
      | none =>
          have hnil : l = [] := (firstMin_eq_none_iff l).mp hl
          subst hnil
          simp only [firstMin] at h
          cases h
          refine ⟨List.mem_singleton.mpr rfl, ?_, 0, by simp, rfl, ?_⟩
          · intro d hd
            rcases List.mem_singleton.mp hd with rfl
            exact le_refl _
          · intro j hj hj0
            omega
      | some b =>
          simp only [firstMin, hl] at h
          obtain ⟨hbmem, hbmin, ib, hib, hibeq, hibfirst⟩ := firstMin_spec l b hl
          by_cases hab : offDist a ≤ offDist b
          · rw [if_pos hab] at h
            cases h
            refine ⟨List.mem_cons_self _ _, ?_, 0, by simp, rfl, ?_⟩
            · intro d hd
              rcases List.mem_cons.mp hd with rfl | hd
              · exact le_refl _
              · exact le_trans hab (hbmin d hd)
            · intro j hj hj0
              omega
          · rw [if_neg hab] at h
            cases h
            push_neg at hab
            refine ⟨List.mem_cons_of_mem _ hbmem, ?_, ib + 1, by simpa using Nat.succ_lt_succ hib, by simpa using hibeq, ?_⟩
            · intro d hd
              rcases List.mem_cons.mp hd with rfl | hd
              · exact le_of_lt hab
              · exact hbmin d hd
            · intro j hj hj0
              cases j with
              | zero => simpa using hab
              | succ j =>
                  have hj' : j < l.length := by simpa using hj
                  have := hibfirst j hj' (by omega)
                  simpa using this

/-- A ring whose free-offset list is empty contributes no best candidate. -/
theorem specBest_eq_none (blocked : GridPos → Bool) (toDest : GridPos) (r : Nat)
    (h : freeOffsets blocked toDest r = []) : specBest blocked toDest r = none := by
  simp [specBest, h, firstMin]

/-- The radius loop stops at the first radius (within 1..5) whose ring holds a
free offset, and returns that ring's first-minimum candidate. -/
theorem ringSearchList_first (blocked : GridPos → Bool) (toDest : GridPos)
    (rstar : Nat) (hr1 : 1 ≤ rstar) (hr5 : rstar ≤ 5)
    (hprev : ∀ r, 1 ≤ r → r < rstar → freeOffsets blocked toDest r = [])
    (c : Int × Int) (hc : firstMin (freeOffsets blocked toDest rstar) = some c) :
    ringSearchList blocked toDest ringRadii = some ⟨candAt toDest c, offDist c⟩ := by
  have hstep : ∀ r, scanRadius blocked toDest r none = specBest blocked toDest r :=
    fun r => scanRadius_eq_specBest blocked toDest r
  have hsome : specBest blocked toDest rstar = some ⟨candAt toDest c, offDist c⟩ := by
    simp [specBest, hc]
  interval_cases rstar <;>
    simp only [ringRadii, ringSearchList, hstep] <;>
    (try rw [specBest_eq_none blocked toDest 1 (hprev 1 (by omega) (by omega))]) <;>
    (try rw [specBest_eq_none blocked toDest 2 (hprev 2 (by omega) (by omega))]) <;>
    (try rw [specBest_eq_none blocked toDest 3 (hprev 3 (by omega) (by omega))]) <;>
    (try rw [specBest_eq_none blocked toDest 4 (hprev 4 (by omega) (by omega))]) <;>
    simp [hsome]

/-- Unfolding of findAccessibleDestination for a present collision primitive. -/
theorem findAccessibleDestination_some (collide : GridPos → GridPos → Bool)
    (fromPos toDest : GridPos) :
    findAccessibleDestination (some collide) fromPos toDest =
      if collide fromPos toDest = false then (toDest, toDest)
      else
        match ringSearchList (fun c => collide fromPos c) toDest ringRadii with
        | some b => (toDest, b.pos)
        | none => (toDest, toDest) := rfl

/-- C4: when the direct step is obstructed, the destination reconciler scans
ring perimeters of radius 1..5 around the raw destination; writing rstar for
the first radius holding an unobstructed candidate, it returns the raw
destination as finalDestination together with the unobstructed candidate of
ring rstar of smallest Manhattan distance to the raw destination, ties broken
by the ring's iteration order (the first attainer wins); and the result is
unchanged under any collision function agreeing on the rings up to rstar, so
larger radii are never consulted once a smaller one succeeds. -/
theorem findAccessibleDestination_ring_search
    (collide : GridPos → GridPos → Bool) (fromPos toDest : GridPos)
    (hblocked : collide fromPos toDest = true)
    (rstar : Nat) (hr1 : 1 ≤ rstar) (hr5 : rstar ≤ searchRadius)
    (hfound : freeOffsets (fun c => collide fromPos c) toDest rstar ≠ [])
    (hprev : ∀ r, 1 ≤ r → r < rstar →
      freeOffsets (fun c => collide fromPos c) toDest r = []) :
    ∃ c, firstMin (freeOffsets (fun c => collide fromPos c) toDest rstar) = some c ∧
      findAccessibleDestination (some collide) fromPos toDest = (toDest, candAt toDest c) ∧
      c ∈ freeOffsets (fun c => collide fromPos c) toDest rstar ∧
      (∀ d ∈ freeOffsets (fun c => collide fromPos c) toDest rstar, offDist c ≤ offDist d) ∧
      (∃ i, ∃ hi : i < (freeOffsets (fun c => collide fromPos c) toDest rstar).length,
        (freeOffsets (fun c => collide fromPos c) toDest rstar).get ⟨i, hi⟩ = c ∧
        ∀ j, ∀ hj : j < (freeOffsets (fun c => collide fromPos c) toDest rstar).length,
          j < i → offDist c < offDist ((freeOffsets (fun c => collide fromPos c) toDest rstar).get ⟨j, hj⟩)) ∧
      (∀ collide2 : GridPos → GridPos → Bool,
        collide2 fromPos toDest = true →
        (∀ r, 1 ≤ r → r ≤ rstar → ∀ d ∈ offsetsAt r,
          collide2 fromPos (candAt toDest d) = collide fromPos (candAt toDest d)) →
        findAccessibleDestination (some collide2) fromPos toDest =
          findAccessibleDestination (some collide) fromPos toDest) := by
  have hr5' : rstar ≤ 5 := hr5
  obtain ⟨c, hc⟩ : ∃ c, firstMin (freeOffsets (fun c => collide fromPos c) toDest rstar) = some c := by
    cases h : firstMin (freeOffsets (fun c => collide fromPos c) toDest rstar) with
    | none => exact absurd ((firstMin_eq_none_iff _).mp h) hfound
    | some c => exact ⟨c, rfl⟩
  have hring := ringSearchList_first (fun c => collide fromPos c) toDest rstar hr1 hr5' hprev c hc
  have hres : findAccessibleDestination (some collide) fromPos toDest = (toDest, candAt toDest c) := by
    rw [findAccessibleDestination_some, if_neg (by simp [hblocked]), hring]
  obtain ⟨hmem, hmin, hidx⟩ := firstMin_spec _ c hc
  refine ⟨c, hc, hres, hmem, hmin, hidx, ?_⟩
  intro collide2 h2 hagr
  have hfree : ∀ r, 1 ≤ r → r ≤ rstar →
      freeOffsets (fun c => collide2 fromPos c) toDest r =
        freeOffsets (fun c => collide fromPos c) toDest r := by
    intro r ha hb
    unfold freeOffsets
    refine List.filter_congr (fun d hd => ?_)
    show (!collide2 fromPos (candAt toDest d)) = !collide fromPos (candAt toDest d)
    rw [hagr r ha hb d hd]
  have hprev2 : ∀ r, 1 ≤ r → r < rstar →
      freeOffsets (fun c => collide2 fromPos c) toDest r = [] := by
    intro r ha hb
    rw [hfree r ha (le_of_lt hb)]
    exact hprev r ha hb
  have hc2 : firstMin (freeOffsets (fun c => collide2 fromPos c) toDest rstar) = some c := by
    rw [hfree rstar hr1 (le_refl _)]
    exact hc
  have hring2 := ringSearchList_first (fun c => collide2 fromPos c) toDest rstar hr1 hr5' hprev2 c hc2
  have hres2 : findAccessibleDestination (some collide2) fromPos toDest = (toDest, candAt toDest c) := by
    rw [findAccessibleDestination_some, if_neg (by simp [h2]), hring2]
  rw [hres2, hres]

/-- A concrete obstructed scene for the C4 witness: only cells (0,2) and
(2,0) admit an unobstructed step from the origin. -/
def collideW : GridPos → GridPos → Bool :=
  fun _ c => !(decide (c = (⟨0, 2⟩ : GridPos)) || decide (c = (⟨2, 0⟩ : GridPos)))

/-- Witness for C4: rings of radius 1 hold no free cell, ring 2 holds (0,2)
and (2,0); the reconciler returns (0,2), the first of the two tied minima. -/
theorem findAccessibleDestination_ring_search_witness :
    collideW ⟨7, 7⟩ ⟨0, 0⟩ = true ∧
      freeOffsets (fun c => collideW ⟨7, 7⟩ c) ⟨0, 0⟩ 2 ≠ [] ∧
      findAccessibleDestination (some collideW) ⟨7, 7⟩ ⟨0, 0⟩ = (⟨0, 0⟩, ⟨0, 2⟩) := by
  refine ⟨by decide, by decide, ?_⟩
  obtain ⟨c, hc, hres, -⟩ :=
    findAccessibleDestination_ring_search collideW ⟨7, 7⟩ ⟨0, 0⟩ (by decide) 2
      (by omega) (by decide) (by decide)
      (by
        intro r h1 h2
        interval_cases r
        decide)
  have hc' : c = ((0 : Int), (2 : Int)) := by
    have hval : firstMin (freeOffsets (fun c => collideW ⟨7, 7⟩ c) ⟨0, 0⟩ 2) =
        some ((0 : Int), (2 : Int)) := by decide
    rw [hval] at hc
    exact (Option.some.inj hc).symm
  rw [hc'] at hres
  exact hres

/-- C7: if the direct-step collision test reports unobstructed, reconcile
performs no ring search and returns the raw destination for both fields, so
finalTarget = queryTarget = rawDestination; in particular whenever the raw
destination is reachable the two fields coincide. -/
theorem findAccessibleDestination_direct (collide : GridPos → GridPos → Bool)
    (fromPos toDest : GridPos) (h : collide fromPos toDest = false) :
    findAccessibleDestination (some collide) fromPos toDest = (toDest, toDest) ∧
      (findAccessibleDestination (some collide) fromPos toDest).1 =
        (findAccessibleDestination (some collide) fromPos toDest).2 := by
  rw [findAccessibleDestination_some, if_pos h]
  exact ⟨rfl, rfl⟩

/-- Witness for C7: a collision-free scene evaluated at origin (1,1) and
destination (4,5). -/
theorem findAccessibleDestination_direct_witness :
    (fun (_ _ : GridPos) => false) (⟨1, 1⟩ : GridPos) (⟨4, 5⟩ : GridPos) = false ∧
      findAccessibleDestination (some (fun _ _ => false)) ⟨1, 1⟩ ⟨4, 5⟩ = (⟨4, 5⟩, ⟨4, 5⟩) :=
  ⟨rfl, (findAccessibleDestination_direct (fun _ _ => false) ⟨1, 1⟩ ⟨4, 5⟩ rfl).1⟩

/-- A FoundryVTT v13 destination waypoint as built by the executor
({ x, y, snapped: true }). -/
structure Waypoint where
  x : Rat
  y : Rat
  snapped : Bool
deriving DecidableEq, Repr

/-- The executor's waypoint conversion: skip the first point of the pixel
path (the current position) and map the rest to snapped destinations. -/
def destinationWaypoints (pixelPath : List PixelPos) : List Waypoint :=
  (pixelPath.drop 1).map (fun p => ⟨p.x, p.y, true⟩)

/-- Result of one run of the waypoint executor: the destination list passed
to the movement authority, the animating set afterwards, and whether a move
failure was caught. -/
structure MoveOutcome where
  issued : List Waypoint
  animating : Finset Nat
  errorCaught : Bool

/-- TokenMovementService.moveTokenThroughWaypoints: guard paths shorter than
2; otherwise mark the token as animating, pass the destination waypoints
(all points but the first) to the movement authority in one move command,
catch a move failure, and always clear the animating mark in the finally
block. moveFails says whether the external move rejects. -/
def moveTokenThroughWaypoints (tokenId : Nat) (pixelPath : List PixelPos)
    (moveFails : Bool) (animating : Finset Nat) : MoveOutcome :=
  if pixelPath.length < 2 then ⟨[], animating, false⟩
  else
    let marked := insert tokenId animating
    let dests := destinationWaypoints pixelPath
    ⟨dests, marked.erase tokenId, moveFails⟩

/-- C5: for every route of length N ≥ 2, the executor does not issue the
first point; it issues exactly N-1 destinations, and the i-th issued
destination carries the coordinates of route point i+1, in order. -/
theorem moveTokenThroughWaypoints_issues (tokenId : Nat) (route : List PixelPos)
    (moveFails : Bool) (animating : Finset Nat) (h : 2 ≤ route.length) :
    (moveTokenThroughWaypoints tokenId route moveFails animating).issued.length =
        route.length - 1 ∧
      ∀ i, ∀ hi : i + 1 < route.length,
        ∃ hi2 : i < (moveTokenThroughWaypoints tokenId route moveFails animating).issued.length,
          ((moveTokenThroughWaypoints tokenId route moveFails animating).issued.get ⟨i, hi2⟩).x =
              (route.get ⟨i + 1, hi⟩).x ∧
            ((moveTokenThroughWaypoints tokenId route moveFails animating).issued.get ⟨i, hi2⟩).y =
              (route.get ⟨i + 1, hi⟩).y := by
  have hguard : ¬route.length < 2 := by omega
  have hiss : (moveTokenThroughWaypoints tokenId route moveFails animating).issued =
      destinationWaypoints route := by
    unfold moveTokenThroughWaypoints
    rw [if_neg hguard]
  have hlen : (destinationWaypoints route).length = route.length - 1 := by
    simp [destinationWaypoints]
  constructor
  · rw [hiss, hlen]
  · intro i hi
    have hi2 : i < (moveTokenThroughWaypoints tokenId route moveFails animating).issued.length := by
      rw [hiss, hlen]
      omega
    refine ⟨hi2, ?_⟩
    have h1i : 1 + i = i + 1 := by omega
    simp only [List.get_eq_getElem, hiss, destinationWaypoints, List.getElem_map,
      List.getElem_drop, h1i]
    exact ⟨trivial, trivial⟩

/-- Witness for C5: a three-point route issues exactly its second and third
points. -/
theorem moveTokenThroughWaypoints_issues_witness :
    2 ≤ ([⟨0, 0⟩, ⟨1, 2⟩, ⟨3, 4⟩] : List PixelPos).length ∧
      (moveTokenThroughWaypoints 0 [⟨0, 0⟩, ⟨1, 2⟩, ⟨3, 4⟩] false ∅).issued.length = 2 := by
  refine ⟨by decide, ?_⟩
  have h := moveTokenThroughWaypoints_issues 0 [⟨0, 0⟩, ⟨1, 2⟩, ⟨3, 4⟩] false ∅ (by decide)
  exact h.1

/-- C8: for every execution on a route of length ≥ 2, the token's membership
in the animating set is gone when the execution finishes, on the success path
and on the error path alike. -/
theorem moveTokenThroughWaypoints_clears_animating (tokenId : Nat)
    (route : List PixelPos) (moveFails : Bool) (animating : Finset Nat)
    (h : 2 ≤ route.length) :
    tokenId ∉ (moveTokenThroughWaypoints tokenId route moveFails animating).animating := by
  have hguard : ¬route.length < 2 := by omega
  unfold moveTokenThroughWaypoints
  rw [if_neg hguard]
  exact Finset.not_mem_erase tokenId _

/-- Witness for C8: concrete run with the token already marked and a failing
move authority; the mark is cleared anyway. -/
theorem moveTokenThroughWaypoints_clears_animating_witness :
    2 ≤ ([⟨0, 0⟩, ⟨5, 5⟩] : List PixelPos).length ∧
      3 ∉ (moveTokenThroughWaypoints 3 [⟨0, 0⟩, ⟨5, 5⟩] true {3}).animating :=
  ⟨by decide,
    moveTokenThroughWaypoints_clears_animating 3 [⟨0, 0⟩, ⟨5, 5⟩] true {3} (by decide)⟩

/-- A JavaScript value as seen by the synchronous drop override: either a
plain boolean, or the Promise an async function returns immediately. -/
inductive JsValue where
  | bool (b : Bool)
  | promise (resolvesTo : Bool)
deriving DecidableEq, Repr

/-- JS truthiness: false is falsy; any object, Promises included, is truthy. -/
def truthy : JsValue → Bool
  | .bool b => b
  | .promise _ => true

/-- The immediate value of calling the installed async onDragDrop handler:
a Promise that will later resolve to the boolean the handler computes. -/
def asyncDropValue (resolved : Bool) : JsValue := .promise resolved

/-- The installed _onDragLeftDrop override invokes the original platform
handler iff the value it got back from onDragDrop is falsy. -/
def overrideInvokesOriginal (shouldUseWaypoints : JsValue) : Bool :=
  !truthy shouldUseWaypoints

/-- C3: since onDragDrop is async, the installed override always inspects a
Promise, which is truthy; so whatever boolean the handler will resolve to,
the override never invokes the original platform drop handler. -/
theorem override_never_invokes_original (resolved : Bool) :
    overrideInvokesOriginal (asyncDropValue resolved) = false := by
  cases resolved <;> rfl

/-- CoordinateService.calculateManhattanDistance. -/
def calculateManhattanDistance (a b : GridPos) : Nat :=
  (b.x - a.x).natAbs + (b.y - a.y).natAbs

/-- CoordinateService.validateCoordinates: both coordinates non-negative (the
finiteness conjunct always holds for rationals). -/
def validateCoordinates (p : PixelPos) : Bool :=
  decide (0 ≤ p.x) && decide (0 ≤ p.y)

/-- The external collaborators and settings one drop consults: oracle
readiness and presence, the collision primitive (absent when routinglib lacks
stepCollidesWithWall), the oracle query, the coordinate helper, and the three
settings read at decision points. -/
structure PathfindingEnv where
  routinglibReady : Bool
  routinglibPresent : Bool
  stepCollides : Option (GridPos → GridPos → Bool)
  calculatePath : GridPos → GridPos → Nat → Option (List GridPos)
  coordHelperAvailable : Bool
  pixelToGrid : PixelPos → GridPos
  gridToPixel : GridPos → PixelPos
  maxPathDistance : Nat
  pathfindingEnabled : Bool
  autoFollowPath : Bool

/-- The budget computed at pathfinding-service.js lines 190-194 into the
variable maxSearchDistance2 (never read afterwards): direct distance scaled
by 10 plus a buffer of 10, clamped by the user's maxPathDistance setting and
by the hard limit 300. -/
def maxSearchDistance2 (directDistance maxPathDistance : Nat) : Nat :=
  min (directDistance * 10 + 10) (min maxPathDistance 300)

/-- The budget actually passed to the oracle query (line 196): the constant
1000, independent of the move distance and of the user setting. -/
def maxSearchDistance : Nat := 1000

/-- PathfindingService.createDirectPathFallback: normalize both endpoints
through grid space; if the coordinate helper is unavailable the conversions
throw and the catch keeps the original endpoints. -/
def createDirectPathFallback (env : PathfindingEnv) (startPos targetPos : PixelPos) :
    List PixelPos :=
  if env.coordHelperAvailable then
    [env.gridToPixel (env.pixelToGrid startPos), env.gridToPixel (env.pixelToGrid targetPos)]
  else
    [startPos, targetPos]

/-- PathfindingService.calculateDragPathfinding: returns the pixel path the
drop handler receives (none when pathfinding was skipped or failed) together
with the list of oracle queries issued, each recorded as
(origin, destination, maxDistance budget). -/
def calculateDragPathfinding (env : PathfindingEnv) (startPos targetPos : PixelPos) :
    Option (List PixelPos) × List (GridPos × GridPos × Nat) :=
  if !(env.routinglibReady && env.routinglibPresent) then (none, [])
  else if !(validateCoordinates startPos && validateCoordinates targetPos) then (none, [])
  else if !env.coordHelperAvailable then (none, [])
  else
    let gridFromPos := env.pixelToGrid startPos
    let gridToPos := env.pixelToGrid targetPos
    let dests := findAccessibleDestination env.stepCollides gridFromPos gridToPos
    let finalDestination := dests.1
    let pathDestination := dests.2
    let queries := [(gridFromPos, pathDestination, maxSearchDistance)]
    match env.calculatePath gridFromPos pathDestination maxSearchDistance with
    | some p =>
      if 1 < p.length then
        if finalDestination ≠ pathDestination then
          (some (p.map env.gridToPixel ++ [env.gridToPixel finalDestination]), queries)
        else (some (p.map env.gridToPixel), queries)
      else (some (createDirectPathFallback env startPos targetPos), queries)
    | none => (some (createDirectPathFallback env startPos targetPos), queries)

/-- A per-token drag session ({ startPos, currentPath, isActive }). -/
structure DragInfo where
  startPos : PixelPos
  currentPath : Option (List PixelPos)
  isActive : Bool
deriving DecidableEq, Repr

/-- The drag session table: the JS Map from token id to session. -/
def DragTable := Nat → Option DragInfo

/-- Map.set: install a session for the key, replacing any previous one. -/
def dragSet (id : Nat) (info : DragInfo) (t : DragTable) : DragTable :=
  fun k => if k = id then some info else t k

/-- Map.delete: remove the key's session. -/
def dragDelete (id : Nat) (t : DragTable) : DragTable :=
  fun k => if k = id then none else t k

/-- DragHandlerService.onDragStart: guard on the pathfinding setting and
oracle readiness, then install a fresh session for the token. -/
def onDragStart (env : PathfindingEnv) (t : DragTable) (id : Nat)
    (tokenPos : PixelPos) : DragTable :=
  if !(env.pathfindingEnabled && env.routinglibReady) then t
  else dragSet id ⟨tokenPos, none, true⟩ t

/-- Result of one drop: the boolean handed back to the override ("waypoints
used"), the session table afterwards, the path scheduled for execution (if
any), and the session origin passed to calculateDragPathfinding (if any). -/
structure DropOutcome where
  usedWaypoints : Bool
  table : DragTable
  executed : Option (List PixelPos)
  originUsed : Option PixelPos

/-- DragHandlerService.onDragDrop: guard on the setting and on session
existence; when the oracle is ready and auto-follow is on, compute the drop
path from the session origin; if a path with more than one point resulted,
schedule the waypoint execution, delete the session and report true;
otherwise delete the session and report false. -/
def onDragDrop (env : PathfindingEnv) (t : DragTable) (id : Nat)
    (targetPos : PixelPos) : DropOutcome :=
  if !env.pathfindingEnabled then ⟨false, t, none, none⟩
  else
    match t id with
    | none => ⟨false, t, none, none⟩
    | some dragInfo =>
      if env.routinglibReady && env.autoFollowPath then
        let calcPath := (calculateDragPathfinding env dragInfo.startPos targetPos).1
        let currentPath :=
          match calcPath with
          | some p => some p
          | none => dragInfo.currentPath
        match currentPath with
        | some p =>
          if 1 < p.length then
            ⟨true, dragDelete id t, some p, some dragInfo.startPos⟩
          else ⟨false, dragDelete id t, none, some dragInfo.startPos⟩
        | none => ⟨false, dragDelete id t, none, some dragInfo.startPos⟩
      else ⟨false, dragDelete id t, none, none⟩

/-- C1 (code bug): the search budget passed to every oracle query issued by
calculateDragPathfinding is the constant 1000 — the value of the overriding
maxSearchDistance binding — while the distance-scaled, user- and
hard-ceiling-clamped budget described by the spec (computed into the unused
maxSearchDistance2) would be, e.g., 10 for a zero-distance move under a user
maximum of 50. -/
theorem oracle_budget_constant :
    (∀ (env : PathfindingEnv) (startPos targetPos : PixelPos)
        (q : GridPos × GridPos × Nat),
        q ∈ (calculateDragPathfinding env startPos targetPos).2 → q.2.2 = 1000) ∧
      maxSearchDistance = 1000 ∧
      maxSearchDistance2 0 50 = 10 ∧
      maxSearchDistance2 0 50 ≠ maxSearchDistance := by
  refine ⟨?_, rfl, rfl, by decide⟩
  intro env s t q hq
  simp only [calculateDragPathfinding] at hq
  split at hq
  · simp at hq
  split at hq
  · simp at hq
  split at hq
  · simp at hq
  split at hq
  case _ p heq =>
    split at hq
    · split at hq
      · simp at hq
        subst hq
        rfl
      · simp at hq
        subst hq
        rfl
    · simp at hq
      subst hq
      rfl
  case _ heq =>
    simp at hq
    subst hq
    rfl

/-- A concrete environment whose oracle always returns a degenerate one-point
route; collision-free scene, floor/cast coordinate maps. -/
def envDeg : PathfindingEnv where
  routinglibReady := true
  routinglibPresent := true
  stepCollides := some (fun _ _ => false)
  calculatePath := fun _ _ _ => some [⟨0, 0⟩]
  coordHelperAvailable := true
  pixelToGrid := fun p => ⟨⌊p.x⌋, ⌊p.y⌋⟩
  gridToPixel := fun g => ⟨(g.x : Rat), (g.y : Rat)⟩
  maxPathDistance := 50
  pathfindingEnabled := true
  autoFollowPath := true

/-- A session table holding one session for token 0 at origin (0,0). -/
def tableDeg : DragTable := fun k => if k = 0 then some ⟨⟨0, 0⟩, none, true⟩ else none

/-- Witness for C1: a concrete drop issues exactly one oracle query, whose
budget component is 1000. -/
theorem oracle_budget_constant_witness :
    ((⟨0, 0⟩, ⟨0, 0⟩, 1000) : GridPos × GridPos × Nat) ∈
        (calculateDragPathfinding envDeg ⟨0, 0⟩ ⟨0, 0⟩).2 ∧
      ((⟨0, 0⟩, ⟨0, 0⟩, 1000) : GridPos × GridPos × Nat).2.2 = 1000 :=
  ⟨by decide,
    oracle_budget_constant.1 envDeg ⟨0, 0⟩ ⟨0, 0⟩ (⟨0, 0⟩, ⟨0, 0⟩, 1000) (by decide)⟩

/-- C2 counterexample: the oracle returns a route of exactly one point, yet
onDragDrop reports "waypoints used" (true) — not false as the claim states —
because the client substitutes a two-point normalized direct route and
executes it, suppressing the platform's default drop movement. -/
theorem degenerate_route_counterexample :
    envDeg.calculatePath ⟨0, 0⟩ ⟨0, 0⟩ maxSearchDistance = some [⟨0, 0⟩] ∧
      (onDragDrop envDeg tableDeg 0 ⟨0, 0⟩).usedWaypoints = true ∧
      ¬(onDragDrop envDeg tableDeg 0 ⟨0, 0⟩).usedWaypoints = false := by
  refine ⟨rfl, by decide, by decide⟩

/-- C2 (amended): when the oracle reports a missing or degenerate (length ≤ 1)
route, the drop coordinator falls back to the normalized two-point direct
route, executes it, deletes the session, and reports "waypoints used" (the
drop handler returns true, so the platform's default drop movement is
suppressed rather than resumed). -/
theorem onDragDrop_degenerate (env : PathfindingEnv) (t : DragTable) (id : Nat)
    (targetPos : PixelPos) (info : DragInfo)
    (hen : env.pathfindingEnabled = true) (hready : env.routinglibReady = true)
    (hpresent : env.routinglibPresent = true) (hauto : env.autoFollowPath = true)
    (hhelper : env.coordHelperAvailable = true)
    (ht : t id = some info)
    (hv1 : validateCoordinates info.startPos = true)
    (hv2 : validateCoordinates targetPos = true)
    (hdeg : ∀ p, env.calculatePath (env.pixelToGrid info.startPos)
        ((findAccessibleDestination env.stepCollides (env.pixelToGrid info.startPos)
          (env.pixelToGrid targetPos)).2) maxSearchDistance = some p → p.length ≤ 1) :
    (onDragDrop env t id targetPos).usedWaypoints = true ∧
      (onDragDrop env t id targetPos).executed =
        some [env.gridToPixel (env.pixelToGrid info.startPos),
          env.gridToPixel (env.pixelToGrid targetPos)] ∧
      (onDragDrop env t id targetPos).table id = none := by
  have hfall : createDirectPathFallback env info.startPos targetPos =
      [env.gridToPixel (env.pixelToGrid info.startPos),
        env.gridToPixel (env.pixelToGrid targetPos)] := by
    simp [createDirectPathFallback, hhelper]
  have hcalc : (calculateDragPathfinding env info.startPos targetPos).1 =
      some (createDirectPathFallback env info.startPos targetPos) := by
    simp only [calculateDragPathfinding, hready, hpresent, hv1, hv2, hhelper,
      Bool.and_self, Bool.not_true, Bool.false_eq_true, if_false]
    cases hres : env.calculatePath (env.pixelToGrid info.startPos)
        ((findAccessibleDestination env.stepCollides (env.pixelToGrid info.startPos)
          (env.pixelToGrid targetPos)).2) maxSearchDistance with
    | none => rfl
    | some p =>
        have hle := hdeg p hres
        have hnot : ¬1 < p.length := by omega
        simp [hnot]
  have hlen2 : 1 < (createDirectPathFallback env info.startPos targetPos).length := by
    rw [hfall]
    simp
  have hdrop : onDragDrop env t id targetPos =
      ⟨true, dragDelete id t,
        some (createDirectPathFallback env info.startPos targetPos),
        some info.startPos⟩ := by
    simp only [onDragDrop, hen, ht, hready, hauto, Bool.and_self, Bool.not_true,
      Bool.false_eq_true, if_false, hcalc]
    rw [if_pos hlen2]
    simp
  rw [hdrop, hfall]
  exact ⟨rfl, rfl, by simp [dragDelete]⟩

/-- Witness for C2's amended statement: concrete degenerate-oracle drop. -/
theorem onDragDrop_degenerate_witness :
    tableDeg 0 = some ⟨⟨0, 0⟩, none, true⟩ ∧
      (onDragDrop envDeg tableDeg 0 ⟨0, 0⟩).usedWaypoints = true := by
  refine ⟨rfl, ?_⟩
  exact (onDragDrop_degenerate envDeg tableDeg 0 ⟨0, 0⟩ ⟨⟨0, 0⟩, none, true⟩
    rfl rfl rfl rfl rfl rfl (by decide) (by decide)
    (fun p hp => by
      simp only [envDeg] at hp
      injection hp with h
      subst h
      decide)).1

/-- C6: when the raw drop destination is blocked, the reconciler produced a
queryTarget different from the finalTarget, and the oracle returns a usable
(more than one point) route, the executed path is the oracle route converted
to world space with one trailing segment appended: its last point is the
world position of the true final target, and the preceding prefix is the
converted oracle route, which ends at the query target's world position
whenever the oracle route ends at the queried destination. -/
theorem trailing_segment_appended (env : PathfindingEnv)
    (startPos targetPos : PixelPos) (finalT queryT : GridPos) (p : List GridPos)
    (hready : env.routinglibReady = true) (hpresent : env.routinglibPresent = true)
    (hv1 : validateCoordinates startPos = true)
    (hv2 : validateCoordinates targetPos = true)
    (hhelper : env.coordHelperAvailable = true)
    (hrec : findAccessibleDestination env.stepCollides (env.pixelToGrid startPos)
        (env.pixelToGrid targetPos) = (finalT, queryT))
    (hne : finalT ≠ queryT)
    (hpath : env.calculatePath (env.pixelToGrid startPos) queryT maxSearchDistance = some p)
    (hlen : 1 < p.length)
    (hend : p.getLast? = some queryT) :
    (calculateDragPathfinding env startPos targetPos).1 =
        some (p.map env.gridToPixel ++ [env.gridToPixel finalT]) ∧
      (p.map env.gridToPixel ++ [env.gridToPixel finalT]).getLast? =
        some (env.gridToPixel finalT) ∧
      (p.map env.gridToPixel ++ [env.gridToPixel finalT]).dropLast =
        p.map env.gridToPixel ∧
      (p.map env.gridToPixel).getLast? = some (env.gridToPixel queryT) := by
  refine ⟨?_, List.getLast?_concat _, by simp, ?_⟩
  · simp only [calculateDragPathfinding, hready, hpresent, hv1, hv2, hhelper,
      Bool.and_self, Bool.not_true, Bool.false_eq_true, if_false, hrec, hpath,
      hlen, hne, ne_eq, not_false_eq_true, if_true]
  · rw [List.getLast?_map, hend]
    rfl

/-- Collision scene for the C6 witness: every step from the origin is
blocked except the one onto cell (1,0). -/
def collideC6 : GridPos → GridPos → Bool :=
  fun _ c => !decide (c = (⟨1, 0⟩ : GridPos))

/-- Environment for the C6 witness: oracle returns the two-point route from
the query origin to the queried destination. -/
def envC6 : PathfindingEnv where
  routinglibReady := true
  routinglibPresent := true
  stepCollides := some collideC6
  calculatePath := fun f d _ => some [f, d]
  coordHelperAvailable := true
  pixelToGrid := fun p => ⟨⌊p.x⌋, ⌊p.y⌋⟩
  gridToPixel := fun g => ⟨(g.x : Rat), (g.y : Rat)⟩
  maxPathDistance := 50
  pathfindingEnabled := true
  autoFollowPath := true

/-- Witness for C6: drop on blocked cell (2,0) with free neighbor (1,0); the
executed path ends with the trailing segment to (2,0)'s world position. -/
theorem trailing_segment_appended_witness :
    findAccessibleDestination envC6.stepCollides (envC6.pixelToGrid ⟨0, 0⟩)
        (envC6.pixelToGrid ⟨2, 0⟩) = (⟨2, 0⟩, ⟨1, 0⟩) ∧
      (calculateDragPathfinding envC6 ⟨0, 0⟩ ⟨2, 0⟩).1 =
        some [⟨0, 0⟩, ⟨1, 0⟩, ⟨2, 0⟩] := by
  refine ⟨by decide, ?_⟩
  have h := trailing_segment_appended envC6 ⟨0, 0⟩ ⟨2, 0⟩ ⟨2, 0⟩ ⟨1, 0⟩
    [⟨0, 0⟩, ⟨1, 0⟩] rfl rfl (by decide) (by decide) rfl (by decide) (by decide)
    (by decide) (by decide) (by decide)
  rw [h.1]
  decide

/-- C9: a second drag-start for the same token with no intervening drop
replaces the session (last-writer-wins): the table then holds exactly the
second session for that token, entries of other tokens are untouched, and a
subsequent drop passes the second session's origin — never the first's — to
the pathfinding computation. -/
theorem dragStart_last_writer_wins (env : PathfindingEnv) (t : DragTable)
    (id : Nat) (pos1 pos2 : PixelPos)
    (hen : env.pathfindingEnabled = true) (hready : env.routinglibReady = true) :
    (onDragStart env (onDragStart env t id pos1) id pos2) id =
        some ⟨pos2, none, true⟩ ∧
      (∀ k, k ≠ id → (onDragStart env (onDragStart env t id pos1) id pos2) k = t k) ∧
      (∀ targetPos,
        (onDragDrop env (onDragStart env (onDragStart env t id pos1) id pos2) id
            targetPos).originUsed = some pos2 ∨
          (onDragDrop env (onDragStart env (onDragStart env t id pos1) id pos2) id
            targetPos).originUsed = none) ∧
      (∀ targetPos, pos1 ≠ pos2 →
        (onDragDrop env (onDragStart env (onDragStart env t id pos1) id pos2) id
            targetPos).originUsed ≠ some pos1) := by
  have hstart : ∀ (tt : DragTable) (pp : PixelPos),
      onDragStart env tt id pp = dragSet id ⟨pp, none, true⟩ tt := by
    intro tt pp
    simp [onDragStart, hen, hready]
  have htab : (onDragStart env (onDragStart env t id pos1) id pos2) id =
      some ⟨pos2, none, true⟩ := by
    rw [hstart, hstart]
    simp [dragSet]
  have hother : ∀ k, k ≠ id →
      (onDragStart env (onDragStart env t id pos1) id pos2) k = t k := by
    intro k hk
    rw [hstart, hstart]
    simp [dragSet, hk]
  have horigin : ∀ targetPos,
      (onDragDrop env (onDragStart env (onDragStart env t id pos1) id pos2) id
          targetPos).originUsed = some pos2 ∨
        (onDragDrop env (onDragStart env (onDragStart env t id pos1) id pos2) id
          targetPos).originUsed = none := by
    intro targetPos
    simp only [onDragDrop, hen, Bool.not_true, Bool.false_eq_true, if_false, htab]
    cases hauto : env.autoFollowPath with
    | false => right; simp [hready, hauto]
    | true =>
        left
        simp only [hready, hauto, Bool.and_self, if_true]
        split
        · split
          · rfl
          · rfl
        · rfl
  refine ⟨htab, hother, horigin, ?_⟩
  intro targetPos hne12
  rcases horigin targetPos with h | h <;> rw [h]
  · intro hcontra
    exact hne12 (Option.some.inj hcontra).symm
  · intro hcontra
    cases hcontra

/-- Witness for C9: two drag-starts for token 1 at origins (0,0) then (1,1);
the surviving session records (1,1). -/
theorem dragStart_last_writer_wins_witness :
    envDeg.pathfindingEnabled = true ∧
      (onDragStart envDeg (onDragStart envDeg (fun _ => none) 1 ⟨0, 0⟩) 1 ⟨1, 1⟩) 1 =
        some ⟨⟨1, 1⟩, none, true⟩ :=
  ⟨rfl, (dragStart_last_writer_wins envDeg (fun _ => none) 1 ⟨0, 0⟩ ⟨1, 1⟩ rfl rfl).1⟩

end RoutingToken
